import Mathlib

/-!
Verification development for the Rural Explorer dashboard (src/js/app.js).

The development shallowly embeds the data-normalization and aggregation
pipeline of `app.js`:

* JS numbers are modelled as rationals (`ℚ`); the not-a-number value `NaN`
  produced by a failed `parseFloat` / `parseInt` is modelled by `Option`
  (`none` = NaN).  Infinite values are outside the model (no cell in the
  modelled domain produces them).
* Spreadsheet cells (the values of `XLSX.utils.sheet_to_json` with
  `raw:true`) are modelled by `CellValue`: a number, a string, a boolean,
  or an absent field (`undefined`).
* A raw row is an association list from exact column-header strings to
  cells, mirroring `row['Price']`-style exact-header lookup.
* The regular-expression match `cellValue.match(/=HYPERLINK\(\s*"([^"]+)"/i)`
  of `extractURL` is modelled by an explicit leftmost scan over the
  character list of the cell.
-/

namespace RuralExplorer

/-- Characters matched by the JavaScript regex class `\s` (also the
characters stripped by `String.prototype.trim` and by the leading
whitespace skip of `parseFloat` / `parseInt`). -/
def jsSpace (c : Char) : Bool :=
  decide (c.toNat = 32 ∨ c.toNat = 9 ∨ c.toNat = 10 ∨ c.toNat = 11 ∨
    c.toNat = 12 ∨ c.toNat = 13 ∨ c.toNat = 0xA0 ∨ c.toNat = 0x1680 ∨
    (0x2000 ≤ c.toNat ∧ c.toNat ≤ 0x200A) ∨ c.toNat = 0x2028 ∨
    c.toNat = 0x2029 ∨ c.toNat = 0x202F ∨ c.toNat = 0x205F ∨
    c.toNat = 0x3000 ∨ c.toNat = 0xFEFF)

/-- Decimal digit test, `[0-9]`. -/
def isDigitChar (c : Char) : Bool :=
  decide (48 ≤ c.toNat ∧ c.toNat ≤ 57)

/-- Numeric value of a list of decimal digits (most significant first). -/
def digitsVal (ds : List Char) : ℕ :=
  ds.foldl (fun a c => 10 * a + (c.toNat - 48)) 0

/-- Consume an optional leading `+` / `-` sign; returns
(negative?, remaining characters). -/
def parseSignChar : List Char → Bool × List Char
  | '-' :: r => (true, r)
  | '+' :: r => (false, r)
  | l => (false, l)

/-- Apply an optional exponent part `[eE][+-]?digits` of a JS
`StrDecimalLiteral` to an already-parsed mantissa.  As in `parseFloat`,
a dangling `e` with no digits is not part of the literal (the longest
valid prefix wins), so the mantissa is returned unchanged. -/
def applyExponent (m : ℚ) (l : List Char) : ℚ :=
  match l with
  | c :: r =>
    if c = 'e' ∨ c = 'E' then
      let (eneg, r2) := parseSignChar r
      let eds := r2.takeWhile isDigitChar
      if eds.isEmpty then m
      else if eneg then m / 10 ^ digitsVal eds else m * 10 ^ digitsVal eds
    else m
  | [] => m

/-- Parse the unsigned body of a JS `StrDecimalLiteral`:
`digits [. digits] [exp]` or `. digits [exp]`.  Returns `none` when no
valid literal starts here (which `parseFloat` reports as NaN). -/
def parseFloatBody (l : List Char) : Option ℚ :=
  let intDs := l.takeWhile isDigitChar
  let r1 := l.drop intDs.length
  match r1 with
  | '.' :: r2 =>
    let fracDs := r2.takeWhile isDigitChar
    if intDs.isEmpty ∧ fracDs.isEmpty then none
    else
      let r3 := r2.drop fracDs.length
      some (applyExponent
        ((digitsVal intDs : ℚ) + (digitsVal fracDs : ℚ) / 10 ^ fracDs.length) r3)
  | _ =>
    if intDs.isEmpty then none
    else some (applyExponent (digitsVal intDs : ℚ) r1)

/-- JS `parseFloat` on a string: skip leading whitespace, optional sign,
then the longest valid decimal literal prefix; `none` models NaN. -/
def strParseFloat (s : String) : Option ℚ :=
  let l := s.data.dropWhile jsSpace
  let (neg, r) := parseSignChar l
  match parseFloatBody r with
  | some q => some (if neg then -q else q)
  | none => none

/-- JS `parseInt(s, 10)` on a string: skip leading whitespace, optional
sign, then the longest prefix of decimal digits; `none` models NaN. -/
def strParseInt (s : String) : Option ℤ :=
  let l := s.data.dropWhile jsSpace
  let (neg, r) := parseSignChar l
  let ds := r.takeWhile isDigitChar
  if ds.isEmpty then none
  else some ((if neg then -1 else 1) * (digitsVal ds : ℤ))

/-- One spreadsheet cell as delivered by the sheet reader in raw mode:
a number, a string (including unevaluated formula text), a boolean, or
an absent field (JS `undefined`). -/
inductive CellValue where
  | num (q : ℚ)
  | str (s : String)
  | bool (b : Bool)
  | absent
deriving DecidableEq, Repr

/-- Truncation toward zero on `ℚ` (how JS `parseInt` treats the decimal
rendering of a finite number: it stops at the decimal point). -/
def ratTrunc (q : ℚ) : ℤ := if 0 ≤ q then ⌊q⌋ else ⌈q⌉

/-- JS `parseFloat(cell)`.  `parseFloat` first converts its argument to a
string: a finite number round-trips through its decimal rendering
unchanged; `"true"`, `"false"` and `"undefined"` have no numeric prefix
and give NaN (`none`). -/
def jsParseFloat : CellValue → Option ℚ
  | .num q => some q
  | .str s => strParseFloat s
  | .bool _ => none
  | .absent => none

/-- JS `parseInt(cell, 10)`.  On a number, the decimal rendering is
re-parsed, which truncates at the decimal point (numbers large enough to
render in exponent notation are outside the modelled domain);
non-numeric strings give NaN (`none`). -/
def jsParseInt : CellValue → Option ℤ
  | .num q => some (ratTrunc q)
  | .str s => strParseInt s
  | .bool _ => none
  | .absent => none

/-- JS truthiness of a cell: empty string, zero, `false` and `undefined`
are falsy. -/
def truthy : CellValue → Bool
  | .num q => decide (q ≠ 0)
  | .str s => !s.data.isEmpty
  | .bool b => b
  | .absent => false

/-- JS `String(cell)`.  Only the string case is exercised by the claims
(in the normalizer every non-string cell in a `toString` position has
already been replaced by a string default via `||`); the number
rendering is approximated by the rational's own rendering. -/
def jsToString : CellValue → String
  | .str s => s
  | .num q => toString q
  | .bool b => if b then "true" else "false"
  | .absent => "undefined"

/-- JS `String.prototype.trim`: strip whitespace from both ends. -/
def jsTrim (s : String) : String :=
  String.mk ((s.data.dropWhile jsSpace).reverse.dropWhile jsSpace).reverse

/-- Evaluation of the normalizer pattern `(cell || dflt).toString().trim()`. -/
def strFieldOr (cell : CellValue) (dflt : String) : String :=
  jsTrim (jsToString (if truthy cell then cell else .str dflt))

/-- ASCII lower-casing of one character; the case-insensitivity of the
`/i` regex flag on the all-ASCII pattern `=HYPERLINK(` is exactly
ASCII case folding (non-ASCII cell characters never canonicalize to an
ASCII pattern character under a non-unicode JS regex). -/
def asciiLower (c : Char) : Char :=
  if 65 ≤ c.toNat ∧ c.toNat ≤ 90 then Char.ofNat (c.toNat + 32) else c

/-- Characters of the literal part `=HYPERLINK(` of the regex
`/=HYPERLINK\(\s*"([^"]+)"/i`, in lower case. -/
def hyperPat : List Char :=
  ['=', 'h', 'y', 'p', 'e', 'r', 'l', 'i', 'n', 'k', '(']

/-- Match a case-insensitive literal pattern at the head of the input;
returns the remaining input on success. -/
def matchToken : List Char → List Char → Option (List Char)
  | [], rest => some rest
  | _ :: _, [] => none
  | p :: ps, c :: cs => if asciiLower c = p then matchToken ps cs else none

/-- Predicate for the regex class `[^"]`. -/
def nonQuote (c : Char) : Bool := decide (c ≠ '"')

/-- Attempt the regex `=HYPERLINK\(\s*"([^"]+)"` (case-insensitively)
anchored at the head of the input, returning the capture group. -/
def hyperMatchAt (l : List Char) : Option (List Char) :=
  match matchToken hyperPat l with
  | none => none
  | some rest =>
    match rest.dropWhile jsSpace with
    | '"' :: r2 =>
      let u := r2.takeWhile nonQuote
      if u.isEmpty then none
      else if (r2.drop u.length).isEmpty then none else some u
    | _ => none

/-- Leftmost match of the regex `/=HYPERLINK\(\s*"([^"]+)"/i` over the
whole input, as JS `String.prototype.match` performs it: the first
position (scanning left to right) at which the pattern matches wins. -/
def hyperlinkScan : List Char → Option (List Char)
  | [] => none
  | c :: cs =>
    match hyperMatchAt (c :: cs) with
    | some u => some u
    | none => hyperlinkScan cs

/-- Test for `cellValue.startsWith('http://') || cellValue.startsWith('https://')`. -/
def startsWithHttp (l : List Char) : Bool :=
  "http://".data.isPrefixOf l || "https://".data.isPrefixOf l

/-- Embedding of `extractURL` (src/js/app.js, lines 81-92): non-strings
and the empty string (both falsy or failing the `typeof` check) give the
placeholder; otherwise the first `=HYPERLINK(\s*"([^"]+)"` capture wins;
otherwise a plain `http://` / `https://` prefix returns the cell
unchanged; otherwise the placeholder `"#"`. -/
def extractURL : CellValue → String
  | .str s =>
    match s.data with
    | [] => "#"
    | c :: cs =>
      match hyperlinkScan (c :: cs) with
      | some u => String.mk u
      | none => if startsWithHttp (c :: cs) then s else "#"
  | _ => "#"

/-- The validated domain record produced by the normalizer
(src/js/app.js, line 182).  `lat` / `lng` are `none` when `parseFloat`
returned NaN. -/
structure PropertyRecord where
  id : ℕ
  address : String
  price : ℚ
  acres : ℚ
  llmScore : ℤ
  lat : Option ℚ
  lng : Option ℚ
  driveTime : ℤ
  url : String
  type : String
deriving DecidableEq, Repr

/-- One raw spreadsheet row: an association list from exact column
header to cell value (the untyped object produced by
`XLSX.utils.sheet_to_json`). -/
abbrev RawRow := List (String × CellValue)

/-- Exact-header cell lookup, `row['Header']`; a missing key is JS
`undefined`. -/
def getCell (row : RawRow) (h : String) : CellValue :=
  match row.find? (fun kv => kv.1 = h) with
  | some kv => kv.2
  | none => .absent

/-- Embedding of the row-normalization body of `loadExcelData`
(src/js/app.js, lines 167-182): numeric fields default to 0 through
`|| 0` (which maps both NaN and 0 to 0), coordinates keep NaN (`none`),
string fields default through `||` then `.toString().trim()`, and the
address is composed with city/state only when both are non-empty. -/
def normalizeRow (row : RawRow) (index : ℕ) : PropertyRecord :=
  let price := (jsParseFloat (getCell row "Price")).getD 0
  let acres := (jsParseFloat (getCell row "Acres")).getD 0
  let lat := jsParseFloat (getCell row "Latitude")
  let lng := jsParseFloat (getCell row "Longitude")
  let driveTime := (jsParseInt (getCell row "Drive Dist (mi)")).getD 0
  let llmScore := (jsParseInt (getCell row "LLM Score")).getD 0
  let address := strFieldOr (getCell row "Address") "Unnamed Property"
  let city := strFieldOr (getCell row "City") ""
  let state := strFieldOr (getCell row "State") ""
  let type := strFieldOr (getCell row "Type") "Land"
  let url := extractURL (getCell row "Property URL Link")
  let fullAddress :=
    if ¬city.data.isEmpty ∧ ¬state.data.isEmpty then
      address ++ ", " ++ city ++ ", " ++ state
    else address
  { id := index, address := fullAddress, price := price, acres := acres,
    llmScore := llmScore, lat := lat, lng := lng, driveTime := driveTime,
    url := url, type := type }

/-- The retention predicate of the filter
`p.price > 0 && !isNaN(p.lat) && !isNaN(p.lng)` (src/js/app.js, line 184). -/
def isValidRecord (p : PropertyRecord) : Bool :=
  decide (0 < p.price) && p.lat.isSome && p.lng.isSome

/-- Embedding of `rawJson.map((row, index) => …).filter(p => …)`
(src/js/app.js, lines 167-187): normalize each row with its ordinal and
retain only valid records. -/
def loadRecords (rows : List RawRow) : List PropertyRecord :=
  ((rows.enum.map fun ia => normalizeRow ia.2 ia.1).filter isValidRecord)

/-- Average price of `renderAnalysis`
(`currentData.reduce((s, p) => s + p.price, 0) / currentData.length`,
src/js/app.js, line 301). -/
def avgPrice (l : List PropertyRecord) : ℚ :=
  l.foldl (fun s p => s + p.price) 0 / l.length

/-- Average price per acre of `renderAnalysis`
(`currentData.reduce((s, p) => s + (p.acres > 0 ? p.price / p.acres : 0), 0)
/ currentData.length`, src/js/app.js, line 302). -/
def avgPricePerAcre (l : List PropertyRecord) : ℚ :=
  l.foldl (fun s p => s + (if 0 < p.acres then p.price / p.acres else 0)) 0
    / l.length

/-- Descending comparison on `llmScore`: the JS comparator
`(a, b) => b.llmScore - a.llmScore` orders `a` no later than `b`
exactly when `b.llmScore ≤ a.llmScore`. -/
def scoreDesc (a b : PropertyRecord) : Prop := b.llmScore ≤ a.llmScore

instance : DecidableRel scoreDesc :=
  fun a b => inferInstanceAs (Decidable (b.llmScore ≤ a.llmScore))

/-- Embedding of `[...currentData].sort((a, b) => b.llmScore - a.llmScore)`
(src/js/app.js, line 307).  ECMAScript `Array.prototype.sort` is a
stable sort, so it is modelled by a stable sort (insertion sort) under
the comparator's ordering. -/
def rankRecords (l : List PropertyRecord) : List PropertyRecord :=
  List.insertionSort scoreDesc l

/-- The top-picks selection `sorted.slice(0, 3)` (src/js/app.js, line 319). -/
def topPicks (l : List PropertyRecord) : List PropertyRecord :=
  (rankRecords l).take 3

/-- JS `Math.round`: round half toward positive infinity. -/
def jsRound (q : ℚ) : ℤ := ⌊q + 1 / 2⌋

/-- Per-record price-per-acre display value of the listing cards
(`p.acres > 0 ? Math.round(p.price / p.acres).toLocaleString() : '—'`,
src/js/app.js, line 240).  `none` is the em-dash "unavailable" marker;
`some n` is rendered as the formatted number `n`. -/
def cardPricePerAcre (p : PropertyRecord) : Option ℤ :=
  if 0 < p.acres then some (jsRound (p.price / p.acres)) else none

/-- Per-record y-value of the bubble chart
(`y: p.acres > 0 ? Math.round(p.price / p.acres) : 0`,
src/js/app.js, line 348). -/
def chartY (p : PropertyRecord) : ℤ :=
  if 0 < p.acres then jsRound (p.price / p.acres) else 0

/-- The sidebar summary produced by `renderAnalysis` for a non-empty
collection.  The narrative sentence interpolates `topPick` (address,
score, drive distance), the rounded average price per acre and the
listing count; its locale-dependent string formatting
(`toLocaleString`) is not part of the model. -/
structure DerivedSummary where
  avgPrice : ℚ
  avgPricePerAcre : ℚ
  topPick : Option PropertyRecord
  listingCount : ℕ
  topPicks : List PropertyRecord
deriving Repr

/-- Embedding of `renderAnalysis` (src/js/app.js, lines 298-332): the
guard `if (currentData.length === 0) return;` yields `none` (no
statistics, no narrative, no top picks are produced); otherwise every
derived value is computed. -/
def renderAnalysis (l : List PropertyRecord) : Option DerivedSummary :=
  if l.isEmpty then none
  else some
    { avgPrice := avgPrice l
      avgPricePerAcre := avgPricePerAcre l
      topPick := (rankRecords l).head?
      listingCount := l.length
      topPicks := topPicks l }

/-! ### Sample data used by concrete scenarios, witnesses and counterexamples -/

/-- A valid record with zero area (scenario 2 of the spec). -/
def sampleA : PropertyRecord :=
  ⟨0, "A", 100000, 0, 80, some 38, some (-77), 10, "#", "Land"⟩

/-- A valid record with area 10 and price 200000 (scenario 2 of the spec). -/
def sampleB : PropertyRecord :=
  ⟨1, "B", 200000, 10, 90, some 38, some (-77), 12, "#", "Land"⟩

/-- A valid record whose true price per acre rounds to zero. -/
def sampleTiny : PropertyRecord :=
  ⟨2, "T", 3, 10, 50, some 38, some (-77), 9, "#", "Land"⟩

/-- Scenario-3 record: ordinal 0, relevance score 70. -/
def sampleS0 : PropertyRecord :=
  ⟨0, "S0", 300000, 10, 70, some 38, some (-77), 20, "#", "Land"⟩

/-- Scenario-3 record: ordinal 1, relevance score 95. -/
def sampleS1 : PropertyRecord :=
  ⟨1, "S1", 250000, 8, 95, some 38, some (-77), 15, "#", "Land"⟩

/-- Scenario-3 record: ordinal 2, relevance score 95. -/
def sampleS2 : PropertyRecord :=
  ⟨2, "S2", 220000, 6, 95, some 38, some (-77), 18, "#", "Land"⟩

/-- A raw row whose `Acres` cell parses to a negative number while the
retention fields (price, coordinates) are all valid. -/
def rowNegAcres : RawRow :=
  [("Price", .num 100000), ("Acres", .str "-3"),
   ("Latitude", .num 38), ("Longitude", .num (-77))]

/-- A raw row carrying only the three retention-relevant cells. -/
def rowBare : RawRow :=
  [("Price", .num 100000), ("Latitude", .num 38), ("Longitude", .num (-77))]

/-- The same retention-relevant cells as `rowBare` plus unrelated fields. -/
def rowDecorated : RawRow :=
  [("Price", .num 100000), ("Latitude", .num 38), ("Longitude", .num (-77)),
   ("Address", .str "Somewhere"), ("Acres", .str "oops"), ("Type", .str "Farm")]

/-! ### Helper lemmas -/

/-- Projection of the normalizer: the price field. -/
theorem normalizeRow_price (row : RawRow) (i : ℕ) :
    (normalizeRow row i).price = (jsParseFloat (getCell row "Price")).getD 0 := rfl

/-- Projection of the normalizer: the acreage field. -/
theorem normalizeRow_acres (row : RawRow) (i : ℕ) :
    (normalizeRow row i).acres = (jsParseFloat (getCell row "Acres")).getD 0 := rfl

/-- Projection of the normalizer: the latitude field. -/
theorem normalizeRow_lat (row : RawRow) (i : ℕ) :
    (normalizeRow row i).lat = jsParseFloat (getCell row "Latitude") := rfl

/-- Projection of the normalizer: the longitude field. -/
theorem normalizeRow_lng (row : RawRow) (i : ℕ) :
    (normalizeRow row i).lng = jsParseFloat (getCell row "Longitude") := rfl

/-- Projection of the normalizer: the drive-distance field. -/
theorem normalizeRow_driveTime (row : RawRow) (i : ℕ) :
    (normalizeRow row i).driveTime = (jsParseInt (getCell row "Drive Dist (mi)")).getD 0 := rfl

/-- Projection of the normalizer: the relevance-score field. -/
theorem normalizeRow_llmScore (row : RawRow) (i : ℕ) :
    (normalizeRow row i).llmScore = (jsParseInt (getCell row "LLM Score")).getD 0 := rfl

/-- Projection of the normalizer: the ordinal id. -/
theorem normalizeRow_id (row : RawRow) (i : ℕ) :
    (normalizeRow row i).id = i := rfl

/-- The retention predicate, unfolded to a proposition. -/
theorem isValidRecord_iff (p : PropertyRecord) :
    isValidRecord p = true ↔ 0 < p.price ∧ p.lat.isSome ∧ p.lng.isSome := by
  simp [isValidRecord, and_assoc]

/-- Folding `+ f p` over a list starting from `s` is `s` plus the sum of
the mapped list. -/
theorem foldl_add_map_sum (f : PropertyRecord → ℚ) :
    ∀ (l : List PropertyRecord) (s : ℚ),
      l.foldl (fun a p => a + f p) s = s + (l.map f).sum
  | [], s => by simp
  | p :: t, s => by
    simp only [List.foldl_cons, List.map_cons, List.sum_cons]
    rw [foldl_add_map_sum f t]
    ring

/-- Cell text of the canonical hyperlink formula: `=HYPERLINK(` followed
by optional whitespace, the quoted URL, and arbitrary remaining text. -/
def mkHyperlinkCell (ws u rest : List Char) : String :=
  String.mk ("=HYPERLINK(".data ++ (ws ++ ('"' :: (u ++ ('"' :: rest)))))

/-- The literal token `=HYPERLINK(` matches at the head of any input that
starts with it (canonical upper-case spelling). -/
theorem matchToken_canonical (l : List Char) :
    matchToken hyperPat ("=HYPERLINK(".data ++ l) = some l := rfl

/-- Dropping while a predicate holds skips a prefix on which it holds
everywhere and stops at the first failing character. -/
theorem dropWhile_all_append {p : Char → Bool} (ws : List Char) {c₀ : Char}
    {l : List Char} (hws : ∀ c ∈ ws, p c = true) (hc : p c₀ = false) :
    (ws ++ c₀ :: l).dropWhile p = c₀ :: l := by
  induction ws with
  | nil => simp [List.dropWhile_cons, hc]
  | cons w ws ih =>
    have hw : p w = true := hws w (by simp)
    simp only [List.cons_append, List.dropWhile_cons, hw, if_true]
    exact ih fun c hcm => hws c (by simp [hcm])

/-- Taking while a predicate holds collects a prefix on which it holds
everywhere and stops at the first failing character. -/
theorem takeWhile_all_append {q : Char → Bool} (u : List Char) {c₀ : Char}
    {l : List Char} (hu : ∀ c ∈ u, q c = true) (hc : q c₀ = false) :
    (u ++ c₀ :: l).takeWhile q = u := by
  induction u with
  | nil => simp [List.takeWhile_cons, hc]
  | cons a u ih =>
    have ha : q a = true := hu a (by simp)
    simp only [List.cons_append, List.takeWhile_cons, ha, if_true]
    simp [ih fun c hcm => hu c (by simp [hcm])]

/-- The anchored regex attempt succeeds on the canonical formula shape
and captures exactly the quoted URL. -/
theorem hyperMatchAt_canonical (ws u rest : List Char)
    (hws : ∀ c ∈ ws, jsSpace c = true) (hu : u ≠ [])
    (hq : ∀ c ∈ u, nonQuote c = true) :
    hyperMatchAt ("=HYPERLINK(".data ++ (ws ++ ('"' :: (u ++ ('"' :: rest)))))
      = some u := by
  unfold hyperMatchAt
  rw [matchToken_canonical]
  dsimp only
  rw [dropWhile_all_append ws hws (show jsSpace '"' = false from rfl)]
  simp only [takeWhile_all_append u hq (show nonQuote '"' = false from rfl)]
  rw [List.drop_left]
  simp [List.isEmpty_eq_false.mpr hu]

/-- A successful anchored match makes the whole-string scan succeed with
the same capture. -/
theorem hyperlinkScan_of_matchAt {l u : List Char} (h : hyperMatchAt l = some u) :
    hyperlinkScan l = some u := by
  cases l with
  | nil => exact absurd h (by simp [hyperMatchAt, matchToken, hyperPat])
  | cons c cs => simp [hyperlinkScan, h]

/-- The scan finds the pattern no matter what precedes it in the cell. -/
theorem hyperlinkScan_append_isSome (l : List Char) (h : (hyperlinkScan l).isSome) :
    ∀ pre : List Char, (hyperlinkScan (pre ++ l)).isSome := by
  intro pre
  induction pre with
  | nil => simpa using h
  | cons c pre ih =>
    rw [List.cons_append]
    unfold hyperlinkScan
    cases hm : hyperMatchAt (c :: (pre ++ l)) with
    | some u => simp
    | none => simpa using ih

/-- When the scan succeeds, `extractURL` returns exactly the capture. -/
theorem extractURL_of_scan {s : String} {u : List Char}
    (h : hyperlinkScan s.data = some u) :
    extractURL (.str s) = String.mk u := by
  unfold extractURL
  dsimp only
  cases hd : s.data with
  | nil => rw [hd] at h; exact absurd h (by simp [hyperlinkScan])
  | cons c cs =>
    rw [hd] at h
    simp [h]

/-- A successful token match consumes exactly the pattern's length. -/
theorem matchToken_length :
    ∀ (pat l rest : List Char), matchToken pat l = some rest →
      l.length = pat.length + rest.length := by
  intro pat
  induction pat with
  | nil =>
    intro l rest h
    simp only [matchToken, Option.some.injEq] at h
    simp [h]
  | cons p ps ih =>
    intro l rest h
    cases l with
    | nil => exact absurd h (by simp [matchToken])
    | cons c cs =>
      simp only [matchToken] at h
      by_cases hc : asciiLower c = p
      · rw [if_pos hc] at h
        have := ih cs rest h
        simp [this]
        omega
      · rw [if_neg hc] at h
        exact absurd h (by simp)

/-- A successful anchored match captures a group at least 13 characters
shorter than the input (`=HYPERLINK(` plus the two quotes). -/
theorem hyperMatchAt_length {l u : List Char} (h : hyperMatchAt l = some u) :
    u.length + 13 ≤ l.length := by
  unfold hyperMatchAt at h
  cases hm : matchToken hyperPat l with
  | none => rw [hm] at h; exact absurd h (by simp)
  | some rest =>
    rw [hm] at h
    dsimp only at h
    have hl : l.length = 11 + rest.length := matchToken_length _ _ _ hm
    have hdrop : (rest.dropWhile jsSpace).length ≤ rest.length :=
      (List.dropWhile_sublist (l := rest) jsSpace).length_le
    split at h
    · rename_i r2 heq
      rw [heq] at hdrop
      split at h
      · exact absurd h (by simp)
      · split at h
        · exact absurd h (by simp)
        · rename_i hne hne2
          have hu : u = r2.takeWhile nonQuote := by simpa using h.symm
          have h1 : u.length ≤ r2.length := by
            rw [hu]; exact (List.takeWhile_sublist nonQuote).length_le
          have h2 : ¬ r2.length ≤ u.length := by
            intro hle
            apply hne2
            rw [← hu]
            simp [List.drop_eq_nil_iff, hle]
          simp only [List.length_cons] at hdrop
          omega
    · exact absurd h (by simp)

/-- A successful scan captures a group at least 13 characters shorter
than the whole cell text. -/
theorem hyperlinkScan_length :
    ∀ {l u : List Char}, hyperlinkScan l = some u → u.length + 13 ≤ l.length := by
  intro l
  induction l with
  | nil => intro u h; exact absurd h (by simp [hyperlinkScan])
  | cons c cs ih =>
    intro u h
    unfold hyperlinkScan at h
    cases hm : hyperMatchAt (c :: cs) with
    | some v =>
      rw [hm] at h
      have : v = u := by simpa using h
      subst this
      exact hyperMatchAt_length hm
    | none =>
      rw [hm] at h
      simp only at h
      have := ih h
      simp only [List.length_cons]
      omega

/-! ### Claim theorems -/

/-- Positivity of `Option.getD · 0` characterised by the underlying
parse result. -/
theorem pos_getD_iff (o : Option ℚ) : 0 < o.getD 0 ↔ ∃ v, o = some v ∧ 0 < v := by
  cases o <;> simp

/-- C1.  A normalized record is retained iff its parsed price is
strictly positive and its parsed latitude and longitude are both
non-NaN; membership in the output collection is exactly normalization
plus this condition, the condition is determined by the three raw cells
`Price` / `Latitude` / `Longitude` alone, and rows differing only in
any other field validate identically (so no other field's absence or
default causes exclusion). -/
theorem claim_c1 :
    (∀ (rows : List RawRow) (p : PropertyRecord),
      p ∈ loadRecords rows ↔
        (∃ ia ∈ rows.enum, p = normalizeRow ia.2 ia.1)
        ∧ 0 < p.price ∧ p.lat.isSome ∧ p.lng.isSome)
    ∧ (∀ (row : RawRow) (i : ℕ),
      isValidRecord (normalizeRow row i) = true ↔
        (∃ v, jsParseFloat (getCell row "Price") = some v ∧ 0 < v)
        ∧ (jsParseFloat (getCell row "Latitude")).isSome
        ∧ (jsParseFloat (getCell row "Longitude")).isSome)
    ∧ (∀ (row row' : RawRow) (i i' : ℕ),
      getCell row "Price" = getCell row' "Price" →
      getCell row "Latitude" = getCell row' "Latitude" →
      getCell row "Longitude" = getCell row' "Longitude" →
      isValidRecord (normalizeRow row i) = isValidRecord (normalizeRow row' i')) := by
  refine ⟨fun rows p => ?_, fun row i => ?_, fun row row' i i' h1 h2 h3 => ?_⟩
  · rw [loadRecords, List.mem_filter, List.mem_map, isValidRecord_iff]
    constructor
    · rintro ⟨⟨ia, hia, hf⟩, hp, hlat, hlng⟩
      exact ⟨⟨ia, hia, hf.symm⟩, hp, hlat, hlng⟩
    · rintro ⟨⟨ia, hia, hf⟩, hp, hlat, hlng⟩
      exact ⟨⟨ia, hia, hf.symm⟩, hp, hlat, hlng⟩
  · rw [isValidRecord_iff, normalizeRow_price, normalizeRow_lat, normalizeRow_lng,
      pos_getD_iff]
  · simp only [isValidRecord, normalizeRow_price, normalizeRow_lat, normalizeRow_lng,
      h1, h2, h3]

/-- Witness for C1: two rows sharing the `Price` / `Latitude` /
`Longitude` cells but differing in all other fields (and ordinal)
validate identically. -/
theorem claim_c1_witness :
    getCell rowBare "Price" = getCell rowDecorated "Price"
    ∧ getCell rowBare "Latitude" = getCell rowDecorated "Latitude"
    ∧ getCell rowBare "Longitude" = getCell rowDecorated "Longitude"
    ∧ isValidRecord (normalizeRow rowBare 0)
        = isValidRecord (normalizeRow rowDecorated 5) :=
  ⟨by decide, by decide, by decide,
    claim_c1.2.2 rowBare rowDecorated 0 5 (by decide) (by decide) (by decide)⟩

/-- Counterexample to C7 as stated: a cell that parses to a negative
number is kept as-is, so a retained record can carry a negative
`areaSize` (the filter only constrains the price). -/
theorem claim_c7_counterexample :
    (normalizeRow rowNegAcres 0).acres = -3
    ∧ (normalizeRow rowNegAcres 0).acres < 0
    ∧ isValidRecord (normalizeRow rowNegAcres 0) = true
    ∧ normalizeRow rowNegAcres 0 ∈ loadRecords [rowNegAcres] :=
  ⟨by decide, by decide, by decide, by decide⟩

/-- C7 (amended).  Numeric parsing is total and never propagates an
error: a parse failure (non-numeric, empty or absent cell) on `Price`,
`Acres`, `Drive Dist (mi)` or `LLM Score` yields the default 0; but a
cell parsing to a negative number keeps its negative value, so price and
areaSize are not in general non-negative — records retained by the
filter do have strictly positive price, while their areaSize may still
be negative. -/
theorem claim_c7 :
    (∀ (row : RawRow) (i : ℕ),
      (jsParseFloat (getCell row "Price") = none → (normalizeRow row i).price = 0)
      ∧ (jsParseFloat (getCell row "Acres") = none → (normalizeRow row i).acres = 0)
      ∧ (jsParseInt (getCell row "Drive Dist (mi)") = none → (normalizeRow row i).driveTime = 0)
      ∧ (jsParseInt (getCell row "LLM Score") = none → (normalizeRow row i).llmScore = 0))
    ∧ (∀ (rows : List RawRow), ∀ p ∈ loadRecords rows, 0 < p.price)
    ∧ strParseFloat "" = none
    ∧ jsParseFloat .absent = none
    ∧ jsParseFloat (.str "N/A") = none
    ∧ jsParseInt (.str "") = none := by
  refine ⟨fun row i => ⟨fun h => ?_, fun h => ?_, fun h => ?_, fun h => ?_⟩,
    fun rows p hp => ?_, by decide, rfl, by decide, by decide⟩
  · rw [normalizeRow_price, h]; rfl
  · rw [normalizeRow_acres, h]; rfl
  · rw [normalizeRow_driveTime, h]; rfl
  · rw [normalizeRow_llmScore, h]; rfl
  · rw [loadRecords] at hp
    exact ((isValidRecord_iff p).mp (List.mem_filter.mp hp).2).1

/-- Witness for C7: an entirely absent row parses to NaN on every
numeric field and the normalizer defaults the price to 0. -/
theorem claim_c7_witness :
    jsParseFloat (getCell ([] : RawRow) "Price") = none
    ∧ (normalizeRow ([] : RawRow) 0).price = 0 :=
  ⟨rfl, (claim_c7.1 ([] : RawRow) 0).1 rfl⟩

/-- The deterministic ranking order: strictly higher relevance score
first; equal scores ordered by ascending ordinal id. -/
def rankKey (a b : PropertyRecord) : Prop :=
  b.llmScore < a.llmScore ∨ (a.llmScore = b.llmScore ∧ a.id < b.id)

/-- Inserting an element whose ordinal id is below that of every element
of an already `rankKey`-ordered list (the stable-insert step: the new
element is the earliest of the originals) keeps the list
`rankKey`-ordered. -/
theorem orderedInsert_pairwise_rankKey (a : PropertyRecord) :
    ∀ L : List PropertyRecord, L.Pairwise rankKey → (∀ x ∈ L, a.id < x.id) →
      (L.orderedInsert scoreDesc a).Pairwise rankKey := by
  intro L
  induction L with
  | nil => intro _ _; simp [List.orderedInsert, List.pairwise_cons]
  | cons c L ih =>
    intro hL hid
    rw [List.orderedInsert]
    by_cases h : scoreDesc a c
    · rw [if_pos h]
      refine List.Pairwise.cons ?_ hL
      intro x hx
      rcases List.mem_cons.mp hx with rfl | hxL
      · rcases lt_or_eq_of_le h with hlt | heq
        · exact Or.inl hlt
        · exact Or.inr ⟨heq.symm, hid x (by simp)⟩
      · have hcx : rankKey c x := (List.pairwise_cons.mp hL).1 x hxL
        have hxle : x.llmScore ≤ c.llmScore := by
          rcases hcx with h1 | ⟨h1, _⟩
          · exact le_of_lt h1
          · exact le_of_eq h1.symm
        rcases lt_or_eq_of_le (le_trans hxle h) with hlt | heq
        · exact Or.inl hlt
        · exact Or.inr ⟨heq.symm, hid x (by simp [hxL])⟩
    · rw [if_neg h]
      have hacLt : a.llmScore < c.llmScore := by
        simpa [scoreDesc] using h
      refine List.Pairwise.cons ?_
        (ih (List.pairwise_cons.mp hL).2 fun x hx => hid x (by simp [hx]))
      intro y hy
      rcases (List.mem_orderedInsert scoreDesc).mp hy with rfl | hyL
      · exact Or.inl hacLt
      · exact (List.pairwise_cons.mp hL).1 y hyL

/-- Because ECMAScript `sort` is stable and the input carries strictly
ascending ordinal ids, the ranked output is ordered by descending score
with score ties in ascending id order. -/
theorem insertionSort_pairwise_rankKey :
    ∀ l : List PropertyRecord, l.Pairwise (fun a b => a.id < b.id) →
      (rankRecords l).Pairwise rankKey := by
  intro l
  induction l with
  | nil => intro _; simp [rankRecords, List.insertionSort]
  | cons b t ih =>
    intro h
    have hpc := List.pairwise_cons.mp h
    rw [rankRecords, List.insertionSort]
    exact orderedInsert_pairwise_rankKey b _ (ih hpc.2) fun x hx =>
      hpc.1 x ((List.perm_insertionSort scoreDesc t).mem_iff.mp hx)

/-- Ordinal ids are assigned as row positions and the filter preserves
order, so every retained collection has strictly ascending ids. -/
theorem loadRecords_pairwise_id (rows : List RawRow) :
    (loadRecords rows).Pairwise fun a b => a.id < b.id := by
  rw [loadRecords]
  apply List.Pairwise.filter
  rw [List.pairwise_map]
  have h : (rows.enum.map Prod.fst).Pairwise (· < ·) := by
    rw [List.enum_map_fst]
    exact List.pairwise_lt_range rows.length
  rw [List.pairwise_map] at h
  exact h.imp fun hab => by simpa [normalizeRow_id] using hab

/-- C4.  For every collection with ascending ordinal ids (which every
retained collection has), the ranking is a permutation of the input
ordered by relevance score descending with ties broken by ascending id;
`topN` is the length-`min 3 count` prefix of the ranked sequence; and on
the scenario with scores 70, 95, 95 at ids 0, 1, 2 the ranked ids are
`[1, 2, 0]`. -/
theorem claim_c4 :
    (∀ l : List PropertyRecord, l.Pairwise (fun a b => a.id < b.id) →
      List.Perm (rankRecords l) l ∧ (rankRecords l).Pairwise rankKey)
    ∧ (∀ rows : List RawRow, (loadRecords rows).Pairwise fun a b => a.id < b.id)
    ∧ (∀ l : List PropertyRecord, topPicks l = (rankRecords l).take 3
        ∧ (topPicks l).length = min 3 l.length)
    ∧ (rankRecords [sampleS0, sampleS1, sampleS2]).map (fun p => p.id) = [1, 2, 0]
    ∧ (topPicks [sampleS0, sampleS1, sampleS2]).map (fun p => p.id) = [1, 2, 0] := by
  refine ⟨fun l h => ⟨List.perm_insertionSort scoreDesc l,
      insertionSort_pairwise_rankKey l h⟩,
    loadRecords_pairwise_id, fun l => ⟨rfl, ?_⟩, by decide, by decide⟩
  rw [topPicks, List.length_take, rankRecords,
    (List.perm_insertionSort scoreDesc l).length_eq]

/-- Witness for C4 at the concrete scenario-3 collection. -/
theorem claim_c4_witness :
    ([sampleS0, sampleS1, sampleS2] : List PropertyRecord).Pairwise
      (fun a b => a.id < b.id)
    ∧ List.Perm (rankRecords [sampleS0, sampleS1, sampleS2]) [sampleS0, sampleS1, sampleS2] :=
  ⟨by decide, (claim_c4.1 [sampleS0, sampleS1, sampleS2] (by decide)).1⟩

/-- C8.  For every non-empty retained record collection, `averagePrice`
equals the arithmetic mean of the `price` fields: the sum of prices
divided by the record count. -/
theorem claim_c8 (l : List PropertyRecord) (_h : l ≠ []) :
    avgPrice l = (l.map fun p => p.price).sum / l.length := by
  unfold avgPrice
  rw [foldl_add_map_sum (fun p => p.price) l 0, zero_add]

/-- Witness for C8 at a concrete two-record collection. -/
theorem claim_c8_witness :
    ([sampleA, sampleB] : List PropertyRecord) ≠ []
    ∧ avgPrice [sampleA, sampleB]
        = (([sampleA, sampleB].map fun p => p.price).sum / ([sampleA, sampleB] : List PropertyRecord).length) :=
  ⟨by decide, claim_c8 [sampleA, sampleB] (by decide)⟩

/-- C3.  For every non-empty collection, `averagePricePerUnitArea` is the
sum over records of (`price / areaSize` when `areaSize > 0`, else `0`)
divided by the total record count — zero-area records contribute zero to
the numerator but still count in the divisor — and on the two-record
scenario (prices 100000 / 200000, areas 0 / 10) it equals 10000. -/
theorem claim_c3 :
    (∀ l : List PropertyRecord, l ≠ [] →
      avgPricePerAcre l
        = (l.map fun p => if 0 < p.acres then p.price / p.acres else 0).sum / l.length)
    ∧ avgPricePerAcre [sampleA, sampleB] = 10000 := by
  constructor
  · intro l _
    unfold avgPricePerAcre
    rw [foldl_add_map_sum (fun p => if 0 < p.acres then p.price / p.acres else 0) l 0,
      zero_add]
  · norm_num [avgPricePerAcre, sampleA, sampleB]

/-- Witness for C3 at a concrete two-record collection. -/
theorem claim_c3_witness :
    ([sampleA, sampleB] : List PropertyRecord) ≠ []
    ∧ avgPricePerAcre [sampleA, sampleB]
        = (([sampleA, sampleB].map fun p => if 0 < p.acres then p.price / p.acres else 0).sum
            / ([sampleA, sampleB] : List PropertyRecord).length) :=
  ⟨by decide, claim_c3.1 [sampleA, sampleB] (by decide)⟩

/-- C5.  On the empty collection the aggregator produces no summary at
all (no statistics, no narrative, no top picks, and the divisions are
never evaluated), and on every non-empty collection it produces the full
summary. -/
theorem claim_c5 :
    renderAnalysis ([] : List PropertyRecord) = none
    ∧ ∀ l : List PropertyRecord, l ≠ [] →
        renderAnalysis l = some
          { avgPrice := avgPrice l
            avgPricePerAcre := avgPricePerAcre l
            topPick := (rankRecords l).head?
            listingCount := l.length
            topPicks := topPicks l } := by
  refine ⟨rfl, fun l h => ?_⟩
  unfold renderAnalysis
  rw [if_neg (by simpa [List.isEmpty_iff] using h)]

/-- Witness for C5 at a concrete one-record collection. -/
theorem claim_c5_witness :
    ([sampleA] : List PropertyRecord) ≠ []
    ∧ renderAnalysis [sampleA] = some
        { avgPrice := avgPrice [sampleA]
          avgPricePerAcre := avgPricePerAcre [sampleA]
          topPick := (rankRecords [sampleA]).head?
          listingCount := ([sampleA] : List PropertyRecord).length
          topPicks := topPicks [sampleA] } :=
  ⟨by decide, claim_c5.2 [sampleA] (by decide)⟩

/-- Counterexample to C6 as stated: the bubble chart's per-record value
falls back to the number `0` for a zero-area record, identical to the
value it gives a record whose genuine price per acre rounds to zero —
so in the chart rendering the zero-area case is not an "unavailable"
marker distinct from zero. -/
theorem claim_c6_counterexample :
    sampleA.acres = 0 ∧ 0 < sampleTiny.acres
    ∧ chartY sampleA = 0 ∧ chartY sampleTiny = 0
    ∧ chartY sampleA = chartY sampleTiny := by
  refine ⟨by decide, by decide, by decide, ?_, ?_⟩
  · norm_num [chartY, sampleTiny, jsRound]
  · norm_num [chartY, sampleA, sampleTiny, jsRound]

/-- C6 (amended).  The listing-card display value is
`round(price / areaSize)` when `areaSize > 0` and otherwise the em-dash
marker (`none`), which is distinct from every numeric value including
zero; the chart's per-record value uses the same rounded quotient for
positive area but falls back to the plain number `0` (not a distinct
marker) for zero or negative area. -/
theorem claim_c6 (p : PropertyRecord) :
    (0 < p.acres →
      cardPricePerAcre p = some (jsRound (p.price / p.acres))
      ∧ chartY p = jsRound (p.price / p.acres))
    ∧ (p.acres ≤ 0 →
      cardPricePerAcre p = none
      ∧ (∀ n : ℤ, cardPricePerAcre p ≠ some n)
      ∧ chartY p = 0) := by
  constructor
  · intro h
    simp [cardPricePerAcre, chartY, h]
  · intro h
    have h' : ¬ 0 < p.acres := not_lt.mpr h
    simp [cardPricePerAcre, chartY, h']

/-- Counterexample to C2 as stated: whitespace between the function name
and the opening parenthesis is NOT tolerated — the regex requires `(` to
follow `HYPERLINK` immediately, so `=HYPERLINK ("…")` falls through to
the placeholder instead of yielding the URL. -/
theorem claim_c2_counterexample :
    extractURL (.str "=HYPERLINK (\"https://example.com/x\",\"label\")") = "#"
    ∧ ("#" : String) ≠ "https://example.com/x" :=
  ⟨by decide, by decide⟩

/-- C2 (amended).  For a hyperlink-formula cell `=HYPERLINK("<url>", …)`
`extractURL` returns the first quoted string following the function
name's parenthesis (so `=HYPERLINK("https://example.com/x","label")`
yields exactly `https://example.com/x`), with the function token matched
case-insensitively and with whitespace tolerated between the opening
parenthesis and the opening quote; whitespace between the function name
and the opening parenthesis is not tolerated. -/
theorem claim_c2 :
    (∀ (ws u rest : List Char), (∀ c ∈ ws, jsSpace c = true) → u ≠ [] →
      (∀ c ∈ u, c ≠ '"') →
      extractURL (.str (mkHyperlinkCell ws u rest)) = String.mk u)
    ∧ extractURL (.str "=HYPERLINK(\"https://example.com/x\",\"label\")")
        = "https://example.com/x"
    ∧ extractURL (.str "=hyperlink(\"https://example.com/x\",\"label\")")
        = "https://example.com/x"
    ∧ extractURL (.str "=HYPERLINK(  \"https://example.com/x\",\"label\")")
        = "https://example.com/x" := by
  refine ⟨fun ws u rest hws hu hq => ?_, by decide, by decide, by decide⟩
  have hq' : ∀ c ∈ u, nonQuote c = true := fun c hc => by
    simp [nonQuote, hq c hc]
  exact extractURL_of_scan
    (hyperlinkScan_of_matchAt (hyperMatchAt_canonical ws u rest hws hu hq'))

/-- Witness for C2 at the concrete URL of the spec's example, with one
space after the parenthesis. -/
theorem claim_c2_witness :
    (∀ c ∈ [' '], jsSpace c = true)
    ∧ "https://example.com/x".data ≠ []
    ∧ (∀ c ∈ "https://example.com/x".data, c ≠ '"')
    ∧ extractURL (.str (mkHyperlinkCell [' '] "https://example.com/x".data ",\"label\")".data))
        = String.mk "https://example.com/x".data :=
  ⟨by decide, by decide, by decide,
    claim_c2.1 _ _ _ (by decide) (by decide) (by decide)⟩

/-- C9.  Every string cell that carries no hyperlink-formula pattern and
does not begin with `http://` or `https://` — including empty and
malformed content — extracts to the placeholder. -/
theorem claim_c9 (s : String) (hscan : hyperlinkScan s.data = none)
    (hhttp : startsWithHttp s.data = false) : extractURL (.str s) = "#" := by
  unfold extractURL
  dsimp only
  cases hd : s.data with
  | nil => rfl
  | cons c cs =>
    rw [hd] at hscan hhttp
    simp [hscan, hhttp]

/-- Witness for C9 at a concrete plain-label cell. -/
theorem claim_c9_witness :
    hyperlinkScan ("View Listing" : String).data = none
    ∧ startsWithHttp ("View Listing" : String).data = false
    ∧ extractURL (.str "View Listing") = "#" :=
  ⟨by decide, by decide, claim_c9 "View Listing" (by decide) (by decide)⟩

/-- C10.  The hyperlink-formula pattern is matched anywhere inside the
cell and takes precedence over the plain-URL rule: whenever the leftmost
scan captures a quoted string, `extractURL` returns that capture (which
is strictly shorter than, hence different from, the whole cell text);
the scan succeeds however much text precedes the pattern; and a cell
that itself begins with `https://` but embeds a formula still yields the
embedded URL. -/
theorem claim_c10 :
    (∀ (s : String) (u : List Char), hyperlinkScan s.data = some u →
      extractURL (.str s) = String.mk u
      ∧ u.length + 13 ≤ s.data.length
      ∧ String.mk u ≠ s)
    ∧ (∀ (pre ws u rest : List Char), (∀ c ∈ ws, jsSpace c = true) → u ≠ [] →
        (∀ c ∈ u, c ≠ '"') →
        (hyperlinkScan
          (pre ++ ("=HYPERLINK(".data ++ (ws ++ ('"' :: (u ++ ('"' :: rest))))))).isSome)
    ∧ extractURL (.str "https://a.example/?f==HYPERLINK(\"https://b.example/y\",\"x\")")
        = "https://b.example/y"
    ∧ startsWithHttp
        ("https://a.example/?f==HYPERLINK(\"https://b.example/y\",\"x\")" : String).data
        = true := by
  refine ⟨fun s u h => ?_, fun pre ws u rest hws hu hq => ?_, by decide, by decide⟩
  · have hlen := hyperlinkScan_length h
    refine ⟨extractURL_of_scan h, hlen, fun heq => ?_⟩
    have hdata : u = s.data := congrArg String.data heq
    rw [hdata] at hlen
    omega
  · have hq' : ∀ c ∈ u, nonQuote c = true := fun c hc => by
      simp [nonQuote, hq c hc]
    exact hyperlinkScan_append_isSome _
      (by rw [hyperlinkScan_of_matchAt (hyperMatchAt_canonical ws u rest hws hu hq')]
          rfl) pre

/-- Witness for C10 at a concrete cell beginning with `https://` and
embedding a hyperlink formula. -/
theorem claim_c10_witness :
    hyperlinkScan ("https://a.example/?f==HYPERLINK(\"https://b.example/y\",\"x\")" : String).data
      = some ("https://b.example/y".data)
    ∧ extractURL (.str "https://a.example/?f==HYPERLINK(\"https://b.example/y\",\"x\")")
        = String.mk ("https://b.example/y".data) :=
  ⟨by decide, (claim_c10.1 _ _ (by decide)).1⟩

/-- Witness for C6 at a concrete record with positive area. -/
theorem claim_c6_witness :
    0 < sampleB.acres
    ∧ cardPricePerAcre sampleB = some (jsRound (sampleB.price / sampleB.acres)) :=
  ⟨by decide, ((claim_c6 sampleB).1 (by decide)).1⟩
